import Mathlib

/-!
Shallow embedding of the Ask Memory Agent Cloudflare Worker (src/index.js).

The worker is a JSON-RPC (MCP) dispatcher exposing three tools over an
external key-value store (env.MEMORY_KV with list/get/put) and an external
completion API (fetch to OpenAI).  The embedding below translates the three
JavaScript functions handleMCP, askMemoryWithAI and searchMemories into Lean,
with the external collaborators modelled as oracles that can either return a
value or throw (Except String models a thrown JS exception, the error string
being error.message).  JavaScript string values are Lean String; a possibly
missing JSON field is Option String; JS truthiness of a string is
"present and non-empty".  String.toLowerCase, trim and includes are embedded
as list-level operations on String.data so that all definitions evaluate
inside the kernel.
-/

namespace AskMemory

/-- JS s.toLowerCase(): character-wise lower-casing of the string. -/
def jsToLower (s : String) : String := String.mk (s.data.map Char.toLower)

/-- JS s.trim(): drop leading and trailing whitespace. -/
def jsTrim (s : String) : String :=
  String.mk (((s.data.dropWhile Char.isWhitespace).reverse.dropWhile
    Char.isWhitespace).reverse)

/-- JS s.includes(pat): substring containment (pat occurs contiguously in s). -/
def jsIncludes (s pat : String) : Bool := decide (pat.data <:+: s.data)

/-- JS truthiness of a possibly-missing string field: false for a missing
field (undefined) and for the empty string. -/
def jsTruthy : Option String → Bool
  | none => false
  | some s => !s.isEmpty

/-- JS `x || ""` on a possibly-missing string field. -/
def jsOr (x : Option String) : String :=
  match x with
  | none => ""
  | some s => if s.isEmpty then "" else s

/-- JS template-literal rendering of a possibly-missing string
(`${name}` prints "undefined" when the field is absent). -/
def jsShow : Option String → String
  | none => "undefined"
  | some s => s

/-- The external key-value namespace (env.MEMORY_KV) in a consistent state:
a flat association list from string keys to string values, enumerated in
list order.  The namespace invariant is that keys are unique
(`(kv.map Prod.fst).Nodup`). -/
abbrev KVStore := List (String × String)

/-- MEMORY_KV.get on a consistent store: value of the first entry with the
given key, or absent. -/
def kvGetStore : KVStore → String → Option String
  | [], _ => none
  | e :: rest, k => if e.1 = k then some e.2 else kvGetStore rest k

/-- MEMORY_KV.put on a consistent store: overwrite the entry with the given
key in place, or append a new entry (overwrite-or-create). -/
def kvPutStore : KVStore → String → String → KVStore
  | [], k, v => [(k, v)]
  | e :: rest, k, v => if e.1 = k then (k, v) :: rest else e :: kvPutStore rest k v

/-- One observable call made by the worker to an external collaborator. -/
inductive Effect where
  | kvList : Effect
  | kvGet (key : String) : Effect
  | kvPut (key value : String) : Effect
  | fetchCompletion : Effect
deriving DecidableEq, Repr

/-- Outcome of the outbound fetch to the completion API: the transport can
throw, or an HTTP response with a status arrives whose body processing
(response.json() and data.choices[0].message.content) either throws or
yields the completion text. -/
inductive FetchOutcome where
  | transportError (msg : String) : FetchOutcome
  | response (status : Nat) (body : Except String String) : FetchOutcome
deriving Repr

/-- response.ok of the fetch API: status in the 2xx range. -/
def responseOk (status : Nat) : Bool := 200 ≤ status && status < 300

/-- The try-block of askMemoryWithAI around the completion call: a transport
throw is caught as is; a non-ok response throws "OpenAI API error: status";
an ok response yields the extracted completion text unless body processing
throws. -/
def completionAttempt : FetchOutcome → Except String String
  | .transportError m => .error m
  | .response status body =>
    if responseOk status then body else .error ("OpenAI API error: " ++ toString status)

/-- The environment seen by one request: oracles for the three key-value
operations (each may throw) and for the completion call (a function of the
prompt sent). -/
structure Env where
  kvListResult : Except String (List String)
  kvGetResult : String → Except String (Option String)
  kvPutResult : String → String → Except String Unit
  fetchOutcome : String → FetchOutcome

/-- params.arguments of a tools/call request: the string fields the three
tools read, each possibly missing. -/
structure ToolArgs where
  question : Option String := none
  key : Option String := none
  value : Option String := none
  query : Option String := none
deriving DecidableEq, Repr

/-- params of a JSON-RPC request (defaults to {} when absent). -/
structure MCPParams where
  name : Option String := none
  arguments : ToolArgs := {}
deriving DecidableEq, Repr

/-- A decoded JSON-RPC request body: method, params and the id that is
echoed back.  The id is opaque to the worker; it is modelled as Option Nat. -/
structure MCPRequest where
  method : String
  params : MCPParams := {}
  id : Option Nat := none
deriving DecidableEq, Repr

/-- The result-or-error part of the JSON-RPC response produced by handleMCP.
textResult models the tool-result convention
content = [\x7b type: "text", text \x7d]: a single textual content block.
The static initialize and tools/list payloads are kept abstract apart from
the tool names listed. -/
inductive RpcPayload where
  | initializeResult : RpcPayload
  | toolsListResult (toolNames : List String) : RpcPayload
  | textResult (text : String) : RpcPayload
  | rpcError (code : Int) (message : String) : RpcPayload
deriving DecidableEq, Repr

/-- A JSON-RPC response envelope: payload plus the echoed id. -/
structure MCPResponse where
  payload : RpcPayload
  id : Option Nat
deriving DecidableEq, Repr

/-- The filter condition of searchMemories for a present value:
`value && (key.name.toLowerCase().includes(query.toLowerCase()) ||
value.toLowerCase().includes(query.toLowerCase()))` — the value is truthy
(non-empty) and the lowercase query occurs in the lowercase key or the
lowercase value. -/
def entryMatches (query k v : String) : Bool :=
  !v.isEmpty && (jsIncludes (jsToLower k) (jsToLower query)
    || jsIncludes (jsToLower v) (jsToLower query))

/-- The body of searchMemories' for-loop over the listed key names: the
bullet line contributed by one key, given what get returned for it.  A key
whose value is absent (null, JS falsy) or fails the filter condition
contributes nothing; otherwise it contributes "• key: value". -/
def lineOf (query k : String) (v? : Option String) : Option String :=
  match v? with
  | none => none
  | some v =>
    if entryMatches query k v then some ("• " ++ k ++ ": " ++ v) else none

/-- The for-loop of searchMemories: sequentially get each listed key; a
throwing get aborts the loop (the exception is caught by the surrounding
try).  Returns the collected bullet lines (or the thrown message) together
with the log of get calls actually made. -/
def searchLoop (query : String) (get : String → Except String (Option String)) :
    List String → Except String (List String) × List Effect
  | [] => (.ok [], [])
  | k :: ks =>
    match get k with
    | .error e => (.error e, [.kvGet k])
    | .ok v? =>
      let r := searchLoop query get ks
      (r.1.map (fun rest => (lineOf query k v?).toList ++ rest), .kvGet k :: r.2)

/-- JS results.join("\n"). -/
def joinNl : List String → String
  | [] => ""
  | [x] => x
  | x :: xs => x ++ "\n" ++ joinNl xs

/-- The tail of searchMemories: the returned text given the collected
result lines. -/
def renderResults (query : String) (results : List String) : String :=
  if results.length = 0 then
    "No memories found matching \"" ++ query ++ "\""
  else
    "Found " ++ toString results.length ++ " memories:\n" ++ joinNl results

/-- searchMemories(query, env): list all keys, get each one, keep matching
entries, render; any throw from list/get is caught and rendered as
"Search error: ...".  Also returns the log of external calls made. -/
def searchMemories (query : String) (env : Env) : String × List Effect :=
  match env.kvListResult with
  | .error e => ("Search error: " ++ e, [.kvList])
  | .ok keys =>
    match searchLoop query env.kvGetResult keys with
    | (.error e, effs) => ("Search error: " ++ e, .kvList :: effs)
    | (.ok results, effs) => (renderResults query results, .kvList :: effs)

/-- The prompt template built by askMemoryWithAI. -/
def promptFor (question searchResults : String) : String :=
  "\nYou are a helpful memory assistant. The user asked: \"" ++ question ++
  "\"\n\nHere's what I found in their stored memories:\n" ++ searchResults ++
  "\n\nProvide a helpful, conversational response. If no relevant memories were found, suggest what kind of information would be useful to store about this topic.\n  "

/-- askMemoryWithAI(question, env): a blank question (after trim) returns the
fixed prompt-for-input text without touching any collaborator; otherwise
search first, then attempt the completion call with the built prompt, and on
any failure fall back to a message embedding the raw search results. -/
def askMemoryWithAI (question : String) (env : Env) : String × List Effect :=
  if jsTrim question = "" then
    ("❓ Please ask a question about your memory.", [])
  else
    let s := searchMemories question env
    let prompt := promptFor question s.1
    match completionAttempt (env.fetchOutcome prompt) with
    | .ok content =>
      ("🧠 **Memory Query**: \"" ++ question ++ "\"\n\n📝 **Response**: " ++
        jsTrim content, s.2 ++ [.fetchCompletion])
    | .error msg =>
      ("🧠 **Memory Query**: \"" ++ question ++ "\"\n\n❌ **AI Error**: " ++ msg ++
        "\n\n📋 **Found memories**: " ++ s.1, s.2 ++ [.fetchCompletion])

/-- handleMCP(body, env): the JSON-RPC dispatcher.  Returns the response
(or, as Except.error, an exception escaping handleMCP — in the source the
only uncaught await is env.MEMORY_KV.put in the store_memory branch) plus
the log of external calls made.  A kvPut effect is logged only when the put
succeeded. -/
def handleMCP (body : MCPRequest) (env : Env) :
    Except String MCPResponse × List Effect :=
  let id := body.id
  if body.method = "initialize" then
    (.ok ⟨.initializeResult, id⟩, [])
  else if body.method = "tools/list" then
    (.ok ⟨.toolsListResult ["ask_memory", "store_memory", "search_memory"], id⟩, [])
  else if body.method = "tools/call" then
    let name := body.params.name
    let args := body.params.arguments
    if name = some "ask_memory" then
      let question := jsOr args.question
      let r := askMemoryWithAI question env
      (.ok ⟨.textResult r.1, id⟩, r.2)
    else if name = some "store_memory" then
      if !(jsTruthy args.key && jsTruthy args.value) then
        (.ok ⟨.textResult "❌ Both key and value are required", id⟩, [])
      else
        let k := jsOr args.key
        let v := jsOr args.value
        match env.kvPutResult k v with
        | .error e => (.error e, [])
        | .ok _ => (.ok ⟨.textResult ("✅ Stored memory: " ++ k), id⟩, [.kvPut k v])
    else if name = some "search_memory" then
      let query := jsOr args.query
      let r := searchMemories query env
      (.ok ⟨.textResult r.1, id⟩, r.2)
    else
      (.ok ⟨.rpcError (-32601) ("Unknown tool: " ++ jsShow name), id⟩, [])
  else
    (.ok ⟨.rpcError (-32601) ("Unknown method: " ++ body.method), id⟩, [])

/-- The POST /mcp wrapper in fetch: a response returned by handleMCP is sent
as is; an exception escaping handleMCP is converted into a JSON-RPC error
envelope with code -32603, the exception message, and id null. -/
def mcpEndpoint (body : MCPRequest) (env : Env) : MCPResponse :=
  match (handleMCP body env).1 with
  | .ok resp => resp
  | .error e => ⟨.rpcError (-32603) e, none⟩

/-- The environment presented by a consistent key-value store whose
operations all succeed: list enumerates the keys in store order, get looks
the key up, put succeeds. -/
def envOfStore (kv : KVStore) (f : String → FetchOutcome) : Env where
  kvListResult := .ok (kv.map Prod.fst)
  kvGetResult := fun k => .ok (kvGetStore kv k)
  kvPutResult := fun _ _ => .ok ()
  fetchOutcome := f

/-- How one logged external call updates a consistent store: a successful
put overwrites-or-creates; list/get/fetch leave the store unchanged. -/
def applyEffect (kv : KVStore) : Effect → KVStore
  | .kvPut k v => kvPutStore kv k v
  | _ => kv

/-- Replay a log of external calls on a consistent store. -/
def applyEffects (kv : KVStore) (effs : List Effect) : KVStore :=
  effs.foldl applyEffect kv

/-- Run one JSON-RPC request against a consistent, never-failing store:
the response produced and the store state afterwards. -/
def runRequest (body : MCPRequest) (f : String → FetchOutcome) (kv : KVStore) :
    Except String MCPResponse × KVStore :=
  let r := handleMCP body (envOfStore kv f)
  (r.1, applyEffects kv r.2)

/-- tools/call request invoking store_memory with the given key and value. -/
def storeReq (k v : String) (i : Option Nat) : MCPRequest :=
  ⟨"tools/call", ⟨some "store_memory", { key := some k, value := some v }⟩, i⟩

/-- tools/call request invoking search_memory with the given query. -/
def searchReq (q : String) (i : Option Nat) : MCPRequest :=
  ⟨"tools/call", ⟨some "search_memory", { query := some q }⟩, i⟩

/-- tools/call request invoking ask_memory with the given question. -/
def askReq (q : String) (i : Option Nat) : MCPRequest :=
  ⟨"tools/call", ⟨some "ask_memory", { question := some q }⟩, i⟩

/-- The bullet lines search_memory produces on a consistent store: the
listed keys are the store's keys in order and get is store lookup. -/
def searchLinesStore (query : String) (kv : KVStore) : List String :=
  (kv.map Prod.fst).filterMap (fun k => lineOf query k (kvGetStore kv k))

/-- Completion collaborator that always fails at the transport level. -/
def fetchBoom : String → FetchOutcome := fun _ => .transportError "boom"

/-- Environment whose key-value put throws (the other operations succeed on
an empty namespace). -/
def envPutThrows : Env where
  kvListResult := .ok []
  kvGetResult := fun _ => .ok none
  kvPutResult := fun _ _ => .error "KV write failed"
  fetchOutcome := fetchBoom

/-- search_memory as worded by the spec (§4.4): keep entries where the
lowercase query is a substring of the lowercase key or the lowercase value;
render either the fixed no-match text or a count-prefixed bulleted list in
enumeration order.  Stated over a consistent store, for comparison with the
code's searchMemories. -/
def specSearchText (query : String) (kv : KVStore) : String :=
  let ms := kv.filter (fun e => jsIncludes (jsToLower e.1) (jsToLower query)
    || jsIncludes (jsToLower e.2) (jsToLower query))
  if ms.length = 0 then
    "No memories found matching \"" ++ query ++ "\""
  else
    "Found " ++ toString ms.length ++ " memories:\n" ++
      joinNl (ms.map (fun e => "• " ++ e.1 ++ ": " ++ e.2))

/-- The spec's search description amended by the counterexample: an entry is
kept only when, in addition, its stored value is non-empty (the code's
value-truthiness test). -/
def specSearchTextAmended (query : String) (kv : KVStore) : String :=
  let ms := kv.filter (fun e => !e.2.isEmpty &&
    (jsIncludes (jsToLower e.1) (jsToLower query)
      || jsIncludes (jsToLower e.2) (jsToLower query)))
  if ms.length = 0 then
    "No memories found matching \"" ++ query ++ "\""
  else
    "Found " ++ toString ms.length ++ " memories:\n" ++
      joinNl (ms.map (fun e => "• " ++ e.1 ++ ": " ++ e.2))

/-- Whether the completion-call outcome is a failure the source's try-block
turns into a thrown error: transport failure or non-2xx status. -/
def fetchFailsB : FetchOutcome → Bool
  | .transportError _ => true
  | .response status _ => !responseOk status

/-- The error message the source's try-block produces for a failing
completion call. -/
def failMsgOf : FetchOutcome → String
  | .transportError m => m
  | .response status _ => "OpenAI API error: " ++ toString status

/-- Whether an external call writes to the key-value store. -/
def isKvWrite : Effect → Bool
  | .kvPut _ _ => true
  | _ => false

/-! ### Basic lemmas about the embedded operations -/

lemma jsIncludes_iff (s pat : String) : jsIncludes s pat = true ↔ pat.data <:+: s.data := by
  simp [jsIncludes]

lemma jsIncludes_self (s : String) : jsIncludes s s = true := by
  simp [jsIncludes]

lemma isEmpty_false_of_ne (s : String) (h : s ≠ "") : s.isEmpty = false := by
  by_contra hb
  have hx : s.isEmpty = true := by simpa using hb
  exact h ((String.isEmpty_iff s).1 hx)

lemma jsTruthy_some (s : String) (h : s ≠ "") : jsTruthy (some s) = true := by
  simp [jsTruthy, isEmpty_false_of_ne s h]

lemma jsOr_some_of_ne (s : String) (h : s ≠ "") : jsOr (some s) = s := by
  simp [jsOr, isEmpty_false_of_ne s h]

lemma infix_append_left (p l₁ l₂ : List Char) (h : p <:+: l₂) : p <:+: l₁ ++ l₂ :=
  h.trans (List.suffix_append l₁ l₂).isInfix

lemma kvGetStore_put_self (kv : KVStore) (k v : String) :
    kvGetStore (kvPutStore kv k v) k = some v := by
  induction kv with
  | nil => simp [kvPutStore, kvGetStore]
  | cons e rest ih =>
    by_cases h : e.1 = k
    · simp [kvPutStore, h, kvGetStore]
    · simp [kvPutStore, h, kvGetStore, ih]

lemma kvGetStore_put_ne (kv : KVStore) (k v k' : String) (h : k' ≠ k) :
    kvGetStore (kvPutStore kv k v) k' = kvGetStore kv k' := by
  induction kv with
  | nil => simp [kvPutStore, kvGetStore, Ne.symm h]
  | cons e rest ih =>
    by_cases hek : e.1 = k
    · have h2 : e.1 ≠ k' := by rw [hek]; exact Ne.symm h
      simp [kvPutStore, hek, kvGetStore, Ne.symm h, h2]
    · by_cases hek' : e.1 = k'
      · simp [kvPutStore, hek, kvGetStore, hek', h]
      · simp [kvPutStore, hek, kvGetStore, hek', ih]

lemma map_fst_put (kv : KVStore) (k v : String) :
    (kvPutStore kv k v).map Prod.fst =
      if k ∈ kv.map Prod.fst then kv.map Prod.fst
      else kv.map Prod.fst ++ [k] := by
  induction kv with
  | nil => simp [kvPutStore]
  | cons e rest ih =>
    by_cases hek : e.1 = k
    · simp [kvPutStore, hek]
    · by_cases hm : k ∈ rest.map Prod.fst
      · simp [kvPutStore, hek, ih, hm, Ne.symm hek]
      · simp [kvPutStore, hek, ih, hm, Ne.symm hek]

lemma nodup_put (kv : KVStore) (k v : String)
    (h : (kv.map Prod.fst).Nodup) :
    ((kvPutStore kv k v).map Prod.fst).Nodup := by
  rw [map_fst_put]
  by_cases hm : k ∈ kv.map Prod.fst
  · simpa [hm] using h
  · simp [hm, List.nodup_append, h]

lemma mem_put (kv : KVStore) (k v : String) : (k, v) ∈ kvPutStore kv k v := by
  induction kv with
  | nil => simp [kvPutStore]
  | cons e rest ih =>
    by_cases hek : e.1 = k
    · simp [kvPutStore, hek]
    · simp [kvPutStore, hek, ih]

lemma count_map_fst_put (kv : KVStore) (k v : String)
    (h : (kv.map Prod.fst).Nodup) :
    ((kvPutStore kv k v).map Prod.fst).count k = 1 := by
  rw [map_fst_put]
  by_cases hm : k ∈ kv.map Prod.fst
  · simp only [hm, if_pos]
    exact List.count_eq_one_of_mem h hm
  · simp only [hm, if_neg, not_false_iff, List.count_append]
    simp [List.count_eq_zero.2 hm]

lemma joinNl_infix_of_mem (x : String) (l : List String) (hx : x ∈ l) :
    x.data <:+: (joinNl l).data := by
  induction l with
  | nil => cases hx
  | cons a t ih =>
    cases t with
    | nil =>
      have : x = a := by simpa using hx
      subst this
      exact List.infix_refl _
    | cons b t2 =>
      rcases List.mem_cons.1 hx with h | h
      · subst h
        refine ⟨[], ("\n".data ++ (joinNl (b :: t2)).data), ?_⟩
        simp [joinNl, String.data_append]
      · have h1 : x.data <:+: '\n' :: (joinNl (b :: t2)).data := by
          obtain ⟨s, t, hst⟩ := ih h
          exact ⟨'\n' :: s, t, by simp [hst]⟩
        have h2 := infix_append_left x.data a.data _ h1
        simpa [joinNl, String.data_append, List.append_assoc] using h2

/-! ### The search pipeline on a consistent store -/

lemma searchLoop_ok (q : String) (get : String → Except String (Option String))
    (g : String → Option String) (ks : List String)
    (h : ∀ k ∈ ks, get k = .ok (g k)) :
    searchLoop q get ks =
      (.ok (ks.filterMap (fun k => lineOf q k (g k))), ks.map Effect.kvGet) := by
  induction ks with
  | nil => simp [searchLoop]
  | cons k ks ih =>
    have hk := h k (by simp)
    have ht : ∀ k' ∈ ks, get k' = .ok (g k') := fun k' hk' => h k' (by simp [hk'])
    cases hl : lineOf q k (g k) <;>
      simp [searchLoop, hk, ih ht, Except.map, List.filterMap_cons, hl]

lemma searchMemories_store (q : String) (kv : KVStore) (f : String → FetchOutcome) :
    searchMemories q (envOfStore kv f) =
      (renderResults q (searchLinesStore q kv),
        .kvList :: (kv.map Prod.fst).map Effect.kvGet) := by
  have h := searchLoop_ok q (fun k => .ok (kvGetStore kv k)) (kvGetStore kv)
    (kv.map Prod.fst) (fun _ _ => rfl)
  simp [searchMemories, envOfStore, h, searchLinesStore]

lemma searchLinesStore_entries (q : String) (kv : KVStore)
    (hnd : (kv.map Prod.fst).Nodup) :
    searchLinesStore q kv = kv.filterMap (fun e => lineOf q e.1 (some e.2)) := by
  induction kv with
  | nil => simp [searchLinesStore]
  | cons e rest ih =>
    simp only [List.map_cons, List.nodup_cons] at hnd
    obtain ⟨hne, hnd'⟩ := hnd
    have hcong : ∀ k ∈ rest.map Prod.fst,
        lineOf q k (kvGetStore (e :: rest) k) = lineOf q k (kvGetStore rest k) := by
      intro k hkm
      have hek : e.1 ≠ k := fun hh => hne (hh ▸ hkm)
      simp [kvGetStore, hek]
    have ih' : (rest.map Prod.fst).filterMap (fun k => lineOf q k (kvGetStore rest k))
        = rest.filterMap (fun x => lineOf q x.1 (some x.2)) := ih hnd'
    have hhead : kvGetStore (e :: rest) e.1 = some e.2 := by simp [kvGetStore]
    show (e.1 :: rest.map Prod.fst).filterMap
        (fun k => lineOf q k (kvGetStore (e :: rest) k))
      = (e :: rest).filterMap (fun x => lineOf q x.1 (some x.2))
    rw [List.filterMap_cons, List.filterMap_cons, List.filterMap_congr hcong, ih', hhead]

/-- Generic: filterMap of an if-then-some-else-none body is map over filter. -/
lemma filterMap_ite {α β : Type} (l : List α) (p : α → Bool) (b : α → β) :
    l.filterMap (fun a => if p a then some (b a) else none) = (l.filter p).map b := by
  induction l with
  | nil => simp
  | cons a t ih =>
    by_cases h : p a <;> simp [h, ih]

/-- Generic: pre-filtering drops only elements the filterMap body sends to
none. -/
lemma filterMap_filter_of_none {α β : Type} (l : List α) (p : α → Bool)
    (f : α → Option β) (h : ∀ a ∈ l, p a = false → f a = none) :
    (l.filter p).filterMap f = l.filterMap f := by
  induction l with
  | nil => simp
  | cons a t ih =>
    have ht : ∀ x ∈ t, p x = false → f x = none := fun x hx => h x (by simp [hx])
    by_cases hp : p a
    · simp [hp, List.filterMap_cons, ih ht]
    · have ha : f a = none := h a (by simp) (by simp [hp])
      simp [hp, List.filterMap_cons, ha, ih ht]

/-! ### Effect logs of the three tools and dispatcher branch lemmas -/

lemma jsOr_some (s : String) : jsOr (some s) = s := by
  by_cases h : s = ""
  · simp [jsOr, h]
  · simp [jsOr, isEmpty_false_of_ne s h]

lemma searchLoop_no_write (q : String) (get : String → Except String (Option String))
    (ks : List String) :
    ∀ e ∈ (searchLoop q get ks).2, isKvWrite e = false := by
  induction ks with
  | nil => simp [searchLoop]
  | cons k ks ih =>
    cases hg : get k with
    | error e => simp [searchLoop, hg, isKvWrite]
    | ok v =>
      simp only [searchLoop, hg]
      intro x hx
      rcases List.mem_cons.1 hx with h | h
      · subst h; rfl
      · exact ih x h

lemma searchMemories_no_write (q : String) (env : Env) :
    ∀ e ∈ (searchMemories q env).2, isKvWrite e = false := by
  intro x hx
  unfold searchMemories at hx
  cases hl : env.kvListResult with
  | error e =>
    rw [hl] at hx
    simp at hx
    subst hx; rfl
  | ok keys =>
    rw [hl] at hx
    dsimp only at hx
    have h2 := searchLoop_no_write q env.kvGetResult keys
    rcases hsl : searchLoop q env.kvGetResult keys with ⟨r, effs⟩
    rw [hsl] at hx h2
    cases r with
    | error e =>
      simp at hx
      rcases hx with rfl | hx
      · rfl
      · exact h2 x hx
    | ok results =>
      simp at hx
      rcases hx with rfl | hx
      · rfl
      · exact h2 x hx

lemma ask_no_write (q : String) (env : Env) :
    ∀ e ∈ (askMemoryWithAI q env).2, isKvWrite e = false := by
  unfold askMemoryWithAI
  by_cases hb : jsTrim q = ""
  · simp [hb]
  · have h := searchMemories_no_write q env
    cases hc : completionAttempt
        (env.fetchOutcome (promptFor q (searchMemories q env).1)) <;>
      · simp only [hb, if_neg, hc]
        intro x hx
        rcases List.mem_append.1 hx with h1 | h1
        · exact h x h1
        · rcases List.mem_singleton.1 h1 with rfl; rfl

lemma handleMCP_store (env : Env) (k v : String) (i : Option Nat)
    (hk : k ≠ "") (hv : v ≠ "") (hput : env.kvPutResult k v = .ok ()) :
    handleMCP (storeReq k v i) env =
      (.ok ⟨.textResult ("✅ Stored memory: " ++ k), i⟩, [.kvPut k v]) := by
  simp [handleMCP, storeReq, jsTruthy_some _ hk, jsTruthy_some _ hv,
    jsOr_some, hput]

lemma run_store (k v : String) (kv : KVStore) (f : String → FetchOutcome)
    (i : Option Nat) (hk : k ≠ "") (hv : v ≠ "") :
    runRequest (storeReq k v i) f kv =
      (.ok ⟨.textResult ("✅ Stored memory: " ++ k), i⟩, kvPutStore kv k v) := by
  rw [runRequest, handleMCP_store (envOfStore kv f) k v i hk hv rfl]
  simp [applyEffects, applyEffect]

lemma handleMCP_search (env : Env) (q : String) (i : Option Nat) :
    handleMCP (searchReq q i) env =
      (.ok ⟨.textResult (searchMemories q env).1, i⟩, (searchMemories q env).2) := by
  simp [handleMCP, searchReq, jsOr_some]

lemma handleMCP_ask (env : Env) (q : String) (i : Option Nat) :
    handleMCP (askReq q i) env =
      (.ok ⟨.textResult (askMemoryWithAI q env).1, i⟩, (askMemoryWithAI q env).2) := by
  simp [handleMCP, askReq, jsOr_some]

/-! ### Folding a sequence of stores -/

lemma foldl_store_eq_put (k : String) (vs : List String) (kv : KVStore)
    (f : String → FetchOutcome) (i : Option Nat) (hk : k ≠ "")
    (hv : ∀ v ∈ vs, v ≠ "") :
    vs.foldl (fun s v => (runRequest (storeReq k v i) f s).2) kv
      = vs.foldl (fun s v => kvPutStore s k v) kv := by
  induction vs generalizing kv with
  | nil => rfl
  | cons v vs ih =>
    have hv0 : v ≠ "" := hv v (by simp)
    have hvt : ∀ x ∈ vs, x ≠ "" := fun x hx => hv x (by simp [hx])
    simp only [List.foldl_cons]
    rw [show (runRequest (storeReq k v i) f kv).2 = kvPutStore kv k v by
      rw [run_store k v kv f i hk hv0]]
    exact ih _ hvt

lemma foldl_put_get_self (k : String) (vs : List String) (h : vs ≠ [])
    (kv : KVStore) :
    kvGetStore (vs.foldl (fun s v => kvPutStore s k v) kv) k
      = some (vs.getLast h) := by
  induction vs generalizing kv with
  | nil => cases h rfl
  | cons v vs ih =>
    cases vs with
    | nil => simp [kvGetStore_put_self]
    | cons v2 t =>
      rw [List.foldl_cons, ih (by simp) (kvPutStore kv k v)]
      simp [List.getLast_cons]

lemma foldl_put_nodup (k : String) (vs : List String) (kv : KVStore)
    (h : (kv.map Prod.fst).Nodup) :
    ((vs.foldl (fun s v => kvPutStore s k v) kv).map Prod.fst).Nodup := by
  induction vs generalizing kv with
  | nil => exact h
  | cons v vs ih => exact ih _ (nodup_put kv k v h)

lemma mem_map_fst_of_get (kv : KVStore) (k v : String)
    (h : kvGetStore kv k = some v) : k ∈ kv.map Prod.fst := by
  induction kv with
  | nil => simp [kvGetStore] at h
  | cons e rest ih =>
    by_cases hek : e.1 = k
    · simp [hek]
    · rw [kvGetStore, if_neg hek] at h
      simp [ih h]

lemma jsIncludes_empty_pat (s : String) : jsIncludes s "" = true := by
  simp only [jsIncludes, decide_eq_true_eq]
  exact ⟨[], s.data, by simp⟩

lemma entryMatches_empty_query (k v : String) :
    entryMatches "" k v = !v.isEmpty := by
  have h0 : jsToLower "" = "" := rfl
  simp [entryMatches, h0, jsIncludes_empty_pat]

lemma lineOf_empty_value (q k : String) : lineOf q k (some "") = none := by
  have h0 : ("" : String).isEmpty = true := rfl
  simp [lineOf, entryMatches, h0]

lemma filter_key_length (kv : KVStore) (k : String)
    (hnd : (kv.map Prod.fst).Nodup) (hmem : k ∈ kv.map Prod.fst) :
    (kv.filter (fun e => e.1 == k)).length = 1 := by
  induction kv with
  | nil => simp at hmem
  | cons e rest ih =>
    simp only [List.map_cons, List.nodup_cons] at hnd
    obtain ⟨hne, hnd'⟩ := hnd
    by_cases hek : e.1 = k
    · have hrest : (rest.filter (fun x => x.1 == k)).length = 0 := by
        rw [List.length_eq_zero, List.filter_eq_nil_iff]
        intro a ha
        simp only [beq_iff_eq]
        intro hak
        exact hne (by rw [hek, ← hak]; exact List.mem_map_of_mem Prod.fst ha)
      simp [List.filter_cons, hek, hrest]
    · have hmem' : k ∈ rest.map Prod.fst := by
        rw [List.map_cons] at hmem
        rcases List.mem_cons.1 hmem with h | h
        · exact absurd h.symm hek
        · exact h
      simp [List.filter_cons, hek, ih hnd' hmem']

/-! ### The claims -/

/-- C3 counterexample: with a key-value collaborator whose put throws, a
tools/call of the registered tool store_memory with both arguments present
is answered by the worker with a JSON-RPC error envelope (code -32603,
HTTP-level catch), not a success — refuting the claim that store failures
are converted into successful results. -/
theorem put_failure_becomes_error_envelope :
    mcpEndpoint (storeReq "a" "b" (some 1)) envPutThrows =
      ⟨.rpcError (-32603) "KV write failed", none⟩ := rfl

/-- C3 (amended): a tools/call of one of the three registered tools returns
a JSON-RPC result envelope with a single text content block — missing
required arguments, search (list/get) failures and completion-call failures
are all converted into success text — provided that, in the store_memory
case with both arguments present, the put call itself does not throw (a
throwing put escapes the dispatcher and becomes a -32603 error envelope,
as the counterexample shows). -/
theorem registered_tool_calls_return_text (env : Env) (body : MCPRequest)
    (hm : body.method = "tools/call")
    (hname : body.params.name = some "ask_memory" ∨
      body.params.name = some "store_memory" ∨
      body.params.name = some "search_memory")
    (hput : body.params.name = some "store_memory" →
      jsTruthy body.params.arguments.key = true →
      jsTruthy body.params.arguments.value = true →
      env.kvPutResult (jsOr body.params.arguments.key)
        (jsOr body.params.arguments.value) = .ok ()) :
    ∃ t, (handleMCP body env).1 = .ok ⟨.textResult t, body.id⟩ := by
  rcases hname with h | h | h
  · exact ⟨(askMemoryWithAI (jsOr body.params.arguments.question) env).1,
      by simp [handleMCP, hm, h]⟩
  · by_cases hkey : jsTruthy body.params.arguments.key = true
    · by_cases hval : jsTruthy body.params.arguments.value = true
      · exact ⟨"✅ Stored memory: " ++ jsOr body.params.arguments.key,
          by simp [handleMCP, hm, h, hkey, hval, hput h hkey hval]⟩
      · have hv' : jsTruthy body.params.arguments.value = false := by
          cases hb : jsTruthy body.params.arguments.value
          · rfl
          · exact absurd hb hval
        exact ⟨"❌ Both key and value are required",
          by simp [handleMCP, hm, h, hkey, hv']⟩
    · have hk' : jsTruthy body.params.arguments.key = false := by
        cases hb : jsTruthy body.params.arguments.key
        · rfl
        · exact absurd hb hkey
      exact ⟨"❌ Both key and value are required",
        by simp [handleMCP, hm, h, hk']⟩
  · exact ⟨(searchMemories (jsOr body.params.arguments.query) env).1,
      by simp [handleMCP, hm, h]⟩

/-- C3 witness: a concrete search_memory tools/call yields a text result. -/
theorem registered_tool_calls_return_text_witness :
    ∃ t, (handleMCP (searchReq "q" (some 2)) envPutThrows).1 =
      .ok ⟨.textResult t, some 2⟩ :=
  registered_tool_calls_return_text envPutThrows (searchReq "q" (some 2)) rfl
    (Or.inr (Or.inr rfl)) (by intro h; simp [searchReq] at h)

/-- C4: a tools/call of store_memory whose arguments lack the key or the
value, or supply a falsy (empty) one, is answered with a JSON-RPC success
(not an error envelope) whose single text content block is the fixed
missing-fields message, and no external call is made. -/
theorem store_missing_fields_text (env : Env) (args : ToolArgs) (i : Option Nat)
    (h : (jsTruthy args.key && jsTruthy args.value) = false) :
    handleMCP ⟨"tools/call", ⟨some "store_memory", args⟩, i⟩ env =
      (.ok ⟨.textResult "❌ Both key and value are required", i⟩, []) := by
  simp [handleMCP, h]

/-- C4 witness: store_memory with key "a" and no value. -/
theorem store_missing_fields_text_witness :
    handleMCP ⟨"tools/call", ⟨some "store_memory", { key := some "a" }⟩, some 1⟩
        envPutThrows =
      (.ok ⟨.textResult "❌ Both key and value are required", some 1⟩, []) :=
  store_missing_fields_text envPutThrows { key := some "a" } (some 1) (by decide)

/-- C5: a tools/call whose params.name is not one of the three registered
tool names is answered with a JSON-RPC error envelope, code -32601, message
"Unknown tool: name"; and any top-level method other than initialize,
tools/list and tools/call is answered with code -32601 and message
"Unknown method: method". -/
theorem unknown_tool_and_unknown_method :
    (∀ (env : Env) (body : MCPRequest),
      body.method = "tools/call" →
      body.params.name ≠ some "ask_memory" →
      body.params.name ≠ some "store_memory" →
      body.params.name ≠ some "search_memory" →
      (handleMCP body env).1 =
        .ok ⟨.rpcError (-32601) ("Unknown tool: " ++ jsShow body.params.name),
          body.id⟩) ∧
    (∀ (env : Env) (body : MCPRequest),
      body.method ≠ "initialize" → body.method ≠ "tools/list" →
      body.method ≠ "tools/call" →
      (handleMCP body env).1 =
        .ok ⟨.rpcError (-32601) ("Unknown method: " ++ body.method), body.id⟩) := by
  constructor
  · intro env body hm h1 h2 h3
    simp [handleMCP, hm, h1, h2, h3]
  · intro env body h1 h2 h3
    simp [handleMCP, h1, h2, h3]

/-- C5 witness: the unregistered tool delete_memory and the unknown method
shutdown. -/
theorem unknown_tool_and_unknown_method_witness :
    (handleMCP ⟨"tools/call", ⟨some "delete_memory", {}⟩, some 4⟩ envPutThrows).1 =
      .ok ⟨.rpcError (-32601) "Unknown tool: delete_memory", some 4⟩ ∧
    (handleMCP ⟨"shutdown", {}, some 5⟩ envPutThrows).1 =
      .ok ⟨.rpcError (-32601) "Unknown method: shutdown", some 5⟩ :=
  ⟨unknown_tool_and_unknown_method.1 envPutThrows _ rfl
      (by decide) (by decide) (by decide),
    unknown_tool_and_unknown_method.2 envPutThrows _
      (by decide) (by decide) (by decide)⟩

/-- C6: ask_memory with a question that is empty, missing, or whitespace-only
after trimming returns the fixed prompt-for-input text with an empty
external-call log: no key-value operation and no completion call occurs. -/
theorem blank_question_no_calls (env : Env) (q? : Option String) (i : Option Nat)
    (h : jsTrim (jsOr q?) = "") :
    handleMCP ⟨"tools/call", ⟨some "ask_memory", { question := q? }⟩, i⟩ env =
      (.ok ⟨.textResult "❓ Please ask a question about your memory.", i⟩, []) := by
  simp [handleMCP, askMemoryWithAI, h]

/-- C6 witness: a whitespace-only question. -/
theorem blank_question_no_calls_witness :
    handleMCP ⟨"tools/call", ⟨some "ask_memory", { question := some " " }⟩, some 6⟩
        envPutThrows =
      (.ok ⟨.textResult "❓ Please ask a question about your memory.", some 6⟩, []) :=
  blank_question_no_calls envPutThrows (some " ") (some 6) (by decide)

/-- C7: for a non-blank question, when the completion call fails (transport
failure or non-2xx status), ask_memory returns the formatted fallback
message carrying the original question, the AI-error notice with the
failure description, and the raw search-results text. -/
theorem ask_completion_failure_fallback (env : Env) (q : String) (i : Option Nat)
    (hq : jsTrim q ≠ "")
    (hfail : fetchFailsB
      (env.fetchOutcome (promptFor q (searchMemories q env).1)) = true) :
    (handleMCP (askReq q i) env).1 =
      .ok ⟨.textResult ("🧠 **Memory Query**: \"" ++ q ++ "\"\n\n❌ **AI Error**: " ++
        failMsgOf (env.fetchOutcome (promptFor q (searchMemories q env).1)) ++
        "\n\n📋 **Found memories**: " ++ (searchMemories q env).1), i⟩ := by
  have hmain : (askMemoryWithAI q env).1 =
      "🧠 **Memory Query**: \"" ++ q ++ "\"\n\n❌ **AI Error**: " ++
        failMsgOf (env.fetchOutcome (promptFor q (searchMemories q env).1)) ++
        "\n\n📋 **Found memories**: " ++ (searchMemories q env).1 := by
    simp only [askMemoryWithAI, if_neg hq]
    cases hf : env.fetchOutcome (promptFor q (searchMemories q env).1) with
    | transportError m => simp [completionAttempt, failMsgOf]
    | response status body =>
      rw [hf] at hfail
      have hok : responseOk status = false := by
        simpa [fetchFailsB] using hfail
      simp [completionAttempt, hok, failMsgOf]
  rw [handleMCP_ask, hmain]

/-- C7 witness: a concrete transport failure with an empty store. -/
theorem ask_completion_failure_fallback_witness :
    (handleMCP (askReq "hi" (some 1)) (envOfStore [] fetchBoom)).1 =
      .ok ⟨.textResult ("🧠 **Memory Query**: \"hi\"\n\n❌ **AI Error**: boom" ++
        "\n\n📋 **Found memories**: No memories found matching \"hi\""), some 1⟩ :=
  ask_completion_failure_fallback (envOfStore [] fetchBoom) "hi" (some 1)
    (by decide) (by decide)

/-- C1: storing a non-empty key and a non-empty value and then searching for
the key returns a JSON-RPC success whose single text content block contains
the substring "key: value". -/
theorem store_then_search_contains_pair (k v : String) (kv : KVStore)
    (f g : String → FetchOutcome) (i₁ i₂ : Option Nat)
    (hk : k ≠ "") (hv : v ≠ "") (hnd : (kv.map Prod.fst).Nodup) :
    (runRequest (storeReq k v i₁) f kv).1 =
        .ok ⟨.textResult ("✅ Stored memory: " ++ k), i₁⟩ ∧
    ∃ t, (handleMCP (searchReq k i₂)
          (envOfStore (runRequest (storeReq k v i₁) f kv).2 g)).1 =
        .ok ⟨.textResult t, i₂⟩ ∧
      jsIncludes t (k ++ ": " ++ v) = true := by
  rw [run_store k v kv f i₁ hk hv]
  refine ⟨rfl, renderResults k (searchLinesStore k (kvPutStore kv k v)), ?_, ?_⟩
  · rw [handleMCP_search, searchMemories_store]
  · have hnd' : ((kvPutStore kv k v).map Prod.fst).Nodup := nodup_put kv k v hnd
    have hline : lineOf k k (some v) = some ("• " ++ k ++ ": " ++ v) := by
      simp [lineOf, entryMatches, isEmpty_false_of_ne v hv, jsIncludes_self]
    have hmemline : ("• " ++ k ++ ": " ++ v) ∈
        searchLinesStore k (kvPutStore kv k v) := by
      rw [searchLinesStore_entries k _ hnd']
      exact List.mem_filterMap.2 ⟨(k, v), mem_put kv k v, hline⟩
    have hlen : (searchLinesStore k (kvPutStore kv k v)).length ≠ 0 := by
      intro h0
      rw [List.length_eq_zero] at h0
      rw [h0] at hmemline
      cases hmemline
    rw [jsIncludes_iff]
    simp only [renderResults, if_neg hlen]
    have h1 : ("• " ++ k ++ ": " ++ v).data <:+:
        (joinNl (searchLinesStore k (kvPutStore kv k v))).data :=
      joinNl_infix_of_mem _ _ hmemline
    have h2 : (k ++ ": " ++ v).data <:+: ("• " ++ k ++ ": " ++ v).data := by
      refine ⟨"• ".data, [], ?_⟩
      simp [String.data_append, List.append_assoc]
    have h3 := h2.trans h1
    simp only [String.data_append]
    exact infix_append_left _ _ _ h3

/-- C1 witness: key "a", value "b" on the empty store. -/
theorem store_then_search_contains_pair_witness :
    (runRequest (storeReq "a" "b" (some 1)) fetchBoom []).1 =
        .ok ⟨.textResult ("✅ Stored memory: " ++ "a"), some 1⟩ ∧
    ∃ t, (handleMCP (searchReq "a" (some 2))
          (envOfStore (runRequest (storeReq "a" "b" (some 1)) fetchBoom []).2
            fetchBoom)).1 =
        .ok ⟨.textResult t, some 2⟩ ∧
      jsIncludes t ("a" ++ ": " ++ "b") = true :=
  store_then_search_contains_pair "a" "b" [] fetchBoom fetchBoom (some 1) (some 2)
    (by decide) (by decide) (by decide)

/-- C2 counterexample: on a store holding the single entry ("a", ""), the
code's search for "a" returns the no-match text (the empty value fails the
truthiness test) whereas the spec's description — keep every entry whose
lowercase key or value contains the query — returns that entry, so the two
texts differ. -/
theorem search_empty_value_diverges_from_spec :
    (searchMemories "a" (envOfStore [("a", "")] fetchBoom)).1 ≠
      specSearchText "a" [("a", "")] := by decide

/-- C2 (amended): on a consistent store with unique keys, search_memory
returns exactly the entries whose value is non-empty and whose lowercase
key or lowercase value contains the lowercase query, rendered as a
count-prefixed bullet list in enumeration order, and the exact no-match
text when no entry qualifies. -/
theorem search_matches_spec_amended (q : String) (kv : KVStore)
    (f : String → FetchOutcome) (hnd : (kv.map Prod.fst).Nodup) :
    (searchMemories q (envOfStore kv f)).1 = specSearchTextAmended q kv := by
  rw [searchMemories_store]
  show renderResults q (searchLinesStore q kv) = specSearchTextAmended q kv
  rw [searchLinesStore_entries q kv hnd]
  have hfun : (fun e : String × String => lineOf q e.1 (some e.2)) =
      (fun e : String × String => if entryMatches q e.1 e.2 then
        some ("• " ++ e.1 ++ ": " ++ e.2) else none) := rfl
  rw [hfun, filterMap_ite]
  simp only [renderResults, specSearchTextAmended, entryMatches, List.length_map]

/-- C2 witness: a store with one matching and one empty-value entry. -/
theorem search_matches_spec_amended_witness :
    (searchMemories "a" (envOfStore [("a", "b"), ("c", "")] fetchBoom)).1 =
      specSearchTextAmended "a" [("a", "b"), ("c", "")] :=
  search_matches_spec_amended "a" [("a", "b"), ("c", "")] fetchBoom (by decide)

/-- C8: a sequence of store_memory calls on one key with non-empty values
leaves exactly one entry for that key, holding the last value; key
uniqueness is preserved, and a subsequent search can list that key's entry
at most once. -/
theorem store_last_write_wins (k : String) (vs : List String) (kv : KVStore)
    (f : String → FetchOutcome) (i : Option Nat)
    (hk : k ≠ "") (hvs : vs ≠ []) (hv : ∀ v ∈ vs, v ≠ "")
    (hnd : (kv.map Prod.fst).Nodup) :
    ((vs.foldl (fun s v => (runRequest (storeReq k v i) f s).2) kv).filter
        (fun e => e.1 == k)).length = 1 ∧
    kvGetStore (vs.foldl (fun s v => (runRequest (storeReq k v i) f s).2) kv) k
      = some (vs.getLast hvs) ∧
    ((vs.foldl (fun s v => (runRequest (storeReq k v i) f s).2) kv).map
      Prod.fst).Nodup ∧
    ∀ q : String,
      (((vs.foldl (fun s v => (runRequest (storeReq k v i) f s).2) kv).filter
          (fun e => e.1 == k)).filterMap
        (fun e => lineOf q e.1 (some e.2))).length ≤ 1 := by
  rw [foldl_store_eq_put k vs kv f i hk hv]
  have hget := foldl_put_get_self k vs hvs kv
  have hnd' := foldl_put_nodup k vs kv hnd
  have hmem := mem_map_fst_of_get _ _ _ hget
  have hlen := filter_key_length _ k hnd' hmem
  refine ⟨hlen, hget, hnd', ?_⟩
  intro q
  calc (((vs.foldl (fun s v => kvPutStore s k v) kv).filter
        (fun e => e.1 == k)).filterMap
      (fun e => lineOf q e.1 (some e.2))).length
      ≤ ((vs.foldl (fun s v => kvPutStore s k v) kv).filter
          (fun e => e.1 == k)).length := List.length_filterMap_le _ _
    _ = 1 := hlen

/-- C8 witness: two stores on key "a" leave the last value retrievable. -/
theorem store_last_write_wins_witness :
    kvGetStore (["b", "c"].foldl
        (fun s v => (runRequest (storeReq "a" v (some 1)) fetchBoom s).2) []) "a"
      = some (["b", "c"].getLast (by decide)) :=
  (store_last_write_wins "a" ["b", "c"] [] fetchBoom (some 1)
    (by decide) (by decide) (by decide) (by decide)).2.1

/-- C9: frame properties — search_memory and ask_memory log no key-value
write for any collaborator behaviour; a successful store_memory logs
exactly the one put of its own key and, on a consistent store, leaves the
value of every other key unchanged. -/
theorem frame_properties :
    (∀ (env : Env) (body : MCPRequest),
      body.params.name = some "search_memory" ∨
        body.params.name = some "ask_memory" →
      ∀ e ∈ (handleMCP body env).2, isKvWrite e = false) ∧
    (∀ (k v : String) (kv : KVStore) (f : String → FetchOutcome) (i : Option Nat),
      k ≠ "" → v ≠ "" →
      (handleMCP (storeReq k v i) (envOfStore kv f)).2 = [Effect.kvPut k v] ∧
      (runRequest (storeReq k v i) f kv).2 = kvPutStore kv k v ∧
      ∀ k' : String, k' ≠ k →
        kvGetStore (runRequest (storeReq k v i) f kv).2 k' = kvGetStore kv k') := by
  constructor
  · intro env body hname e he
    by_cases h1 : body.method = "initialize"
    · simp [handleMCP, h1] at he
    · by_cases h2 : body.method = "tools/list"
      · simp [handleMCP, h1, h2] at he
      · by_cases h3 : body.method = "tools/call"
        · rcases hname with h | h
          · simp only [handleMCP, h1, h2, h3, h, if_false, if_true] at he
            simp at he
            exact searchMemories_no_write _ env e he
          · simp only [handleMCP, h1, h2, h3, h, if_false, if_true] at he
            simp at he
            exact ask_no_write _ env e he
        · simp [handleMCP, h1, h2, h3] at he
  · intro k v kv f i hk hv
    refine ⟨?_, ?_, ?_⟩
    · rw [handleMCP_store (envOfStore kv f) k v i hk hv rfl]
    · rw [run_store k v kv f i hk hv]
    · intro k' hk'
      rw [run_store k v kv f i hk hv]
      exact kvGetStore_put_ne kv k v k' hk'

/-- C9 witness: storing under "a" leaves the value of "c" unchanged. -/
theorem frame_properties_witness :
    kvGetStore (runRequest (storeReq "a" "b" (some 1)) fetchBoom [("c", "d")]).2 "c"
      = kvGetStore [("c", "d")] "c" :=
  (frame_properties.2 "a" "b" [("c", "d")] fetchBoom (some 1)
    (by decide) (by decide)).2.2 "c" (by decide)

/-- C10: with the empty query, search_memory returns exactly the entries
whose stored value is non-empty, in order; pre-dropping empty-value entries
never changes any search result; and an absent value contributes nothing
for any query. -/
theorem empty_query_and_empty_values :
    (∀ kv : KVStore, (kv.map Prod.fst).Nodup →
      searchLinesStore "" kv =
        (kv.filter (fun e => !e.2.isEmpty)).map
          (fun e => "• " ++ e.1 ++ ": " ++ e.2)) ∧
    (∀ (q : String) (kv : KVStore), (kv.map Prod.fst).Nodup →
      searchLinesStore q kv =
        searchLinesStore q (kv.filter (fun e => !e.2.isEmpty))) ∧
    (∀ q k : String, lineOf q k none = none) := by
  refine ⟨?_, ?_, fun q k => rfl⟩
  · intro kv hnd
    rw [searchLinesStore_entries "" kv hnd]
    have hcong : ∀ e ∈ kv, lineOf "" e.1 (some e.2) =
        if !e.2.isEmpty then some ("• " ++ e.1 ++ ": " ++ e.2) else none := by
      intro e _
      simp only [lineOf, entryMatches_empty_query]
    rw [List.filterMap_congr hcong, filterMap_ite]
  · intro q kv hnd
    have hsubl : ((kv.filter (fun e => !e.2.isEmpty)).map Prod.fst).Sublist
        (kv.map Prod.fst) := (List.filter_sublist kv).map Prod.fst
    have hnd2 : ((kv.filter (fun e => !e.2.isEmpty)).map Prod.fst).Nodup :=
      List.Nodup.sublist hsubl hnd
    rw [searchLinesStore_entries q kv hnd, searchLinesStore_entries q _ hnd2]
    refine (filterMap_filter_of_none kv _ _ (fun e _ hpe => ?_)).symm
    have hempty : e.2.isEmpty = true := by simpa using hpe
    have he : e.2 = "" := (String.isEmpty_iff e.2).1 hempty
    rw [he]
    exact lineOf_empty_value q e.1

/-- C10 witness: concrete stores with an empty-value entry. -/
theorem empty_query_and_empty_values_witness :
    searchLinesStore "" [("a", "b"), ("c", "")] = ["• a: b"] ∧
    searchLinesStore "x" [("a", "b: x"), ("c", "")] =
      searchLinesStore "x" [("a", "b: x")] :=
  ⟨empty_query_and_empty_values.1 [("a", "b"), ("c", "")] (by decide),
    empty_query_and_empty_values.2.1 "x" [("a", "b: x"), ("c", "")] (by decide)⟩

end AskMemory
